import Mathlib

/-!
Verification of the UNO-style card game engine.

This file shallowly embeds the core game-state machine of the repository:
the deck builder, move validator, effect resolver, turn engine, scoring
engine and the host-authoritative synchronization handlers.  Pure
functions are translated directly; the React `setState` effects are
modelled as functions from `GameState` to `GameState` (the state that the
corresponding `setState` call installs).  `Math.random`-based shuffles are
modelled by an explicit parameter `sh : List Card → List Card`, which the
theorems constrain to be a permutation.  The string card ids `card-<i>`
are modelled by their counter value `i : Nat`.  The auxiliary UI-facing
fields `aiComment` and `isAiThinking` (pure commentary, chosen by
`Math.random` text tables) and the players' `avatar` URLs are outside the
embedded state: no rule of the engine reads them.
-/

/-- The five card colors of `types.ts` (`CardColor`): four playable colors
plus the `BLACK` wild pseudo-color. -/
inductive CardColor where
  | RED | BLUE | GREEN | YELLOW | BLACK
deriving DecidableEq, Repr

/-- The six card types of `types.ts` (`CardType`). -/
inductive CardType where
  | NUMBER | SKIP | REVERSE | DRAW_TWO | WILD | WILD_DRAW_FOUR
deriving DecidableEq, Repr

/-- A card (`types.ts`): identity, color, type and the optional numeric
value carried only by number cards. -/
structure Card where
  id : Nat
  color : CardColor
  type : CardType
  value : Option Nat
deriving DecidableEq, Repr

/-- A player (`types.ts`): identity, display name, human/computer flag,
hand and cumulative score.  The `avatar` URL is omitted (pure UI). -/
structure Player where
  id : String
  name : String
  isAi : Bool
  hand : List Card
  score : Nat
deriving DecidableEq, Repr

/-- The game status enumeration of `types.ts` (`GameStatus`). -/
inductive GameStatus where
  | LOBBY | PLAYING | ROUND_OVER | GAME_OVER
deriving DecidableEq, Repr

/-- The match state (`types.ts` `GameState`), restricted to the fields the
rules engine reads and writes; `aiComment` and `isAiThinking` are omitted
as explained in the file header. -/
structure GameState where
  deck : List Card
  discardPile : List Card
  players : List Player
  currentPlayerIndex : Nat
  direction : Int
  status : GameStatus
  winner : Option String
  roundWinner : Option String
  pointsWon : Nat
  currentColor : CardColor
deriving DecidableEq, Repr

/-- The play mode (`types.ts` `GameMode`): single player versus the
computer, same-device local play, or networked play. -/
inductive GameMode where
  | AI | LOCAL | ONLINE
deriving DecidableEq, Repr

/-- `COLORS` from `constants.ts`: the four playable colors in canonical
order. -/
def COLORS : List CardColor :=
  [CardColor.RED, CardColor.BLUE, CardColor.GREEN, CardColor.YELLOW]

/-- The 25 cards pushed per playable color by `createDeck`
(`gameLogic.ts`): one 0, two each of 1 through 9, and two each of
skip/reverse/draw-two, with the sequential id counter starting at
`base`. -/
def cardsForColor (base : Nat) (color : CardColor) : List Card :=
  [⟨base, color, CardType.NUMBER, some 0⟩]
    ++ ((List.range 9).map (fun i =>
          [⟨base + 1 + 2 * i, color, CardType.NUMBER, some (i + 1)⟩,
           ⟨base + 2 + 2 * i, color, CardType.NUMBER, some (i + 1)⟩])).flatten
    ++ ((List.range 2).map (fun i =>
          [⟨base + 19 + 3 * i, color, CardType.SKIP, none⟩,
           ⟨base + 20 + 3 * i, color, CardType.REVERSE, none⟩,
           ⟨base + 21 + 3 * i, color, CardType.DRAW_TWO, none⟩])).flatten

/-- The full 108-card list built by `createDeck` (`gameLogic.ts`) before
its final shuffle: 25 cards per color in `COLORS` order, then four
interleaved wild / wild-draw-four pairs, ids `0`..`107` in push order. -/
def createDeckBase : List Card :=
  (COLORS.enum.map (fun p => cardsForColor (25 * p.1) p.2)).flatten
    ++ ((List.range 4).map (fun i =>
          [⟨100 + 2 * i, CardColor.BLACK, CardType.WILD, none⟩,
           ⟨101 + 2 * i, CardColor.BLACK, CardType.WILD_DRAW_FOUR, none⟩])).flatten

/-- `createDeck` (`gameLogic.ts`): the base composition passed through the
`Math.random` Fisher-Yates shuffle, modelled by the parameter `sh`. -/
def createDeck (sh : List Card → List Card) : List Card :=
  sh createDeckBase

/-- `isValidMove` (`gameLogic.ts`): wild-colored cards are always legal;
otherwise the card's own color must match the active color, or its type
must match the top card's type (with equal values for number cards). -/
def isValidMove (card topCard : Card) (currentColor : CardColor) : Bool :=
  if card.color = CardColor.BLACK then true
  else if card.color = currentColor then true
  else if card.type = topCard.type then
    if card.type = CardType.NUMBER then decide (card.value = topCard.value)
    else true
  else false

/-- `canPlayAny` (`gameLogic.ts`): some card of the hand passes
`isValidMove`. -/
def canPlayAny (hand : List Card) (topCard : Card) (currentColor : CardColor) : Bool :=
  hand.any (fun card => isValidMove card topCard currentColor)

/-- `calculateHandScore` (`gameLogic.ts`): number cards count their face
value (`card.value || 0`), skip/reverse/draw-two count 20, wild and
wild-draw-four count 50. -/
def calculateHandScore (hand : List Card) : Nat :=
  hand.foldl (fun total card =>
    if card.type = CardType.NUMBER then total + card.value.getD 0
    else if card.type = CardType.SKIP ∨ card.type = CardType.REVERSE
            ∨ card.type = CardType.DRAW_TWO then total + 20
    else if card.type = CardType.WILD ∨ card.type = CardType.WILD_DRAW_FOUR then total + 50
    else total) 0

/-- The index-advance computation duplicated in `nextTurn` and in the
draw-two / wild-draw-four arms of `handleCardEffect` (`App.tsx`): add the
direction, then clamp an overflow to `0` and an underflow to the last
index. -/
def wrapIdx (len : Nat) (dir : Int) (i : Nat) : Nat :=
  let ni : Int := (i : Int) + dir
  if (len : Int) ≤ ni then 0
  else if ni < 0 then len - 1
  else ni.toNat

/-- `nextTurn` (`App.tsx`): advance the active player pointer by the
current direction with wrap-around.  (The local-mode intermission flag it
also sets is pure UI.) -/
def nextTurn (current : GameState) : GameState :=
  { current with
      currentPlayerIndex :=
        wrapIdx current.players.length current.direction current.currentPlayerIndex }

/-- In-place mutation of one element of a copied player list, as performed
by `players[playerIndex].hand.push(...)` / `.splice(...)` on the copies
made in `drawCards` and `finalizeMove` (`App.tsx`): the list with the
element at position `i` replaced by `f` of it. -/
def updateAt (i : Nat) (f : Player → Player) : List Player → List Player
  | [] => []
  | p :: ps =>
    match i with
    | 0 => f p :: ps
    | n + 1 => p :: updateAt n f ps

/-- `drawCards` (`App.tsx`): if the deck holds fewer than `count` cards
and the discard pile more than one, the discard pile minus its top card is
shuffled (`sh`) and appended to the deck, the top card remaining alone on
the pile; then `min count deck.length` cards move from the front of the
deck into the hand of player `playerIndex`. -/
def drawCards (sh : List Card → List Card) (playerIndex count : Nat)
    (state : GameState) : GameState :=
  let deck := state.deck
  let discardPile := state.discardPile
  let recycled : List Card × List Card :=
    if deck.length < count then
      if 1 < discardPile.length then
        match discardPile.getLast? with
        | some top => (deck ++ sh discardPile.dropLast, [top])
        | none => (deck, discardPile)
      else (deck, discardPile)
    else (deck, discardPile)
  let deck1 := recycled.1
  let cardsToDraw := min count deck1.length
  let drawn := deck1.take cardsToDraw
  let deck2 := deck1.drop cardsToDraw
  let players1 := updateAt playerIndex (fun p => { p with hand := p.hand ++ drawn }) state.players
  { state with deck := deck2, players := players1, discardPile := recycled.2 }

/-- `handleCardEffect` (`App.tsx`): non-wild cards set the active color to
their own color; skip advances the pointer once here, reverse advances
once with two players and otherwise flips the direction, draw-two and
wild-draw-four force the next player (by current direction, before any
advance) to draw 2 or 4 and then advance the pointer once here. -/
def handleCardEffect (sh : List Card → List Card) (card : Card)
    (state : GameState) : GameState :=
  let newState :=
    if card.color ≠ CardColor.BLACK then { state with currentColor := card.color }
    else state
  match card.type with
  | CardType.SKIP => nextTurn newState
  | CardType.REVERSE =>
    if newState.players.length = 2 then nextTurn newState
    else { newState with direction := newState.direction * (-1) }
  | CardType.DRAW_TWO =>
    let victimIndex :=
      wrapIdx newState.players.length newState.direction newState.currentPlayerIndex
    nextTurn (drawCards sh victimIndex 2 newState)
  | CardType.WILD_DRAW_FOUR =>
    let victim4Index :=
      wrapIdx newState.players.length newState.direction newState.currentPlayerIndex
    nextTurn (drawCards sh victim4Index 4 newState)
  | _ => newState

/-- The round-end sum computed in the win branch of `finalizeMove`
(`App.tsx`): the total `calculateHandScore` over every player other than
`playerIndex`. -/
def otherHandsTotal (playerIndex : Nat) (players : List Player) : Nat :=
  ((players.enum.filter (fun ip => ip.1 != playerIndex)).map
    (fun ip => calculateHandScore ip.2.hand)).sum

/-- `finalizeMove` (`App.tsx`): on an online follower the move is only
sent to the authority, leaving local state untouched; on the authority the
played card is appended to the discard pile and spliced out of the acting
player's hand, a chosen wild color is applied, and then either the
round-end branch runs (hand emptied: score the opponents' hands, set
round-result fields, and stop) or the card effect is resolved and the turn
advanced.  A missing acting player (out-of-range index) crashes the
JavaScript before any `setState`, modelled by returning the input
state. -/
def finalizeMove (sh : List Card → List Card) (targetScore : Nat)
    (gameMode : GameMode) (isHost : Bool)
    (card : Card) (index : Nat) (chosenWildColor : Option CardColor)
    (currentState : GameState) : GameState :=
  if gameMode = GameMode.ONLINE ∧ isHost = false then currentState
  else
    let playerIndex := currentState.currentPlayerIndex
    match currentState.players[playerIndex]? with
    | none => currentState
    | some player0 =>
      let handAfter := player0.hand.eraseIdx index
      let players1 := updateAt playerIndex
        (fun p => { p with hand := p.hand.eraseIdx index }) currentState.players
      let state1 : GameState :=
        { currentState with
            players := players1,
            discardPile := currentState.discardPile ++ [card] }
      let state2 :=
        match chosenWildColor with
        | some c =>
          if card.color = CardColor.BLACK then { state1 with currentColor := c }
          else state1
        | none => state1
      if handAfter.isEmpty then
        let opponentPoints :=
          (state2.players.enum.filter (fun ip => ip.1 != playerIndex)).foldl
            (fun acc ip => acc + calculateHandScore ip.2.hand) 0
        let players2 := updateAt playerIndex
          (fun p => { p with score := p.score + opponentPoints }) state2.players
        let newScore := player0.score + opponentPoints
        if targetScore ≤ newScore then
          { state2 with
              players := players2, roundWinner := some player0.name,
              pointsWon := opponentPoints, status := GameStatus.GAME_OVER,
              winner := some player0.name }
        else
          { state2 with
              players := players2, roundWinner := some player0.name,
              pointsWon := opponentPoints, status := GameStatus.ROUND_OVER }
      else
        nextTurn (handleCardEffect sh card state2)

/-- `handleHumanPlay` (`App.tsx`): a local play attempt.  It is dropped
when the match is not in progress or it is not the acting seat's turn;
an illegal card (by `isValidMove` against the top discard card and active
color) is rejected with no state change; a wild merely opens the color
picker (no state change yet); otherwise the move is finalized.  An empty
discard pile crashes the JavaScript validator before any mutation,
modelled by returning the input state. -/
def handleHumanPlay (sh : List Card → List Card) (targetScore : Nat)
    (gameMode : GameMode) (isHost : Bool)
    (card : Card) (index : Nat) (s : GameState) : GameState :=
  if s.status ≠ GameStatus.PLAYING then s
  else
    let isMyTurn :=
      (gameMode = GameMode.AI ∧ s.currentPlayerIndex = 0) ∨
      (gameMode = GameMode.ONLINE ∧ isHost = true ∧ s.currentPlayerIndex = 0) ∨
      (gameMode = GameMode.ONLINE ∧ isHost = false ∧ s.currentPlayerIndex = 1) ∨
      gameMode = GameMode.LOCAL
    if ¬ isMyTurn then s
    else
      match s.discardPile.getLast? with
      | none => s
      | some topCard =>
        if isValidMove card topCard s.currentColor = false then s
        else if card.color = CardColor.BLACK then s
        else finalizeMove sh targetScore gameMode isHost card index none s

/-- The authority's `PLAYER_MOVE` handler in `setupConnectionListeners`
(`App.tsx`): a non-host ignores the message; the host looks the card id up
in the follower's hand (seat 1) and, when found, applies `finalizeMove`
exactly as a local action.  The returned flag records whether a
state-snapshot broadcast was sent (the authority-mode `finalizeMove`
always broadcasts). -/
def hostHandleMove (sh : List Card → List Card) (targetScore : Nat)
    (isHost : Bool) (cardId : Nat) (wildColor : Option CardColor)
    (s : GameState) : GameState × Bool :=
  if isHost = false then (s, false)
  else
    match s.players[1]? with
    | none => (s, false)
    | some player =>
      match player.hand.findIdx? (fun c => c.id == cardId) with
      | none => (s, false)
      | some cardIndex =>
        match player.hand[cardIndex]? with
        | none => (s, false)
        | some card =>
          (finalizeMove sh targetScore GameMode.ONLINE true card cardIndex wildColor s, true)

/-- The start-card selection loop of `setupRound` / `startMultiplayerMatch`
(`App.tsx`): shift cards off the deck, pushing wild-draw-fours to the
back, until a non-wild-draw-four surfaces.  The fuel bounds the JavaScript
`while` loop; `none` models the (unreachable for real decks) case of no
eligible card. -/
def findStart : Nat → List Card → Option (Card × List Card)
  | _, [] => none
  | 0, _ :: _ => none
  | fuel + 1, c :: rest =>
    if c.type = CardType.WILD_DRAW_FOUR then findStart fuel (rest ++ [c])
    else some (c, rest)

/-- The dealing loop of `setupRound` (`App.tsx`): each player in order
takes `deck.splice(0, 7)` as their new hand, discarding any previous
hand. -/
def deal : List Player → List Card → List Player × List Card
  | [], deck => ([], deck)
  | p :: ps, deck =>
    ({ p with hand := deck.take 7 } :: (deal ps (deck.drop 7)).1,
     (deal ps (deck.drop 7)).2)

/-- `setupRound` (`App.tsx`): from a freshly created deck (`deck0`,
standing for the `createDeck()` call), flip the first
non-wild-draw-four card onto the discard pile, deal 7 cards to every
player, and start play at `startPlayerIndex` with direction `1` and the
start card's color (RED for a wild start card) as active color. -/
def setupRound (deck0 : List Card) (playersConfig : List Player)
    (startPlayerIndex : Nat) : Option GameState :=
  match findStart deck0.length deck0 with
  | none => none
  | some (startCard, deck1) =>
    let dealt := deal playersConfig deck1
    let initialColor :=
      if startCard.color = CardColor.BLACK then CardColor.RED else startCard.color
    some
      { deck := dealt.2,
        discardPile := [startCard],
        players := dealt.1,
        currentPlayerIndex := startPlayerIndex,
        direction := 1,
        status := GameStatus.PLAYING,
        winner := none,
        roundWinner := none,
        pointsWon := 0,
        currentColor := initialColor }

/-- Every card in existence in a match state: deck, then discard pile,
then every player's hand. -/
def allCards (s : GameState) : List Card :=
  s.deck ++ s.discardPile ++ (s.players.map Player.hand).flatten

/-- The number of cards of a deck with a given color, type and value. -/
def countCards (d : List Card) (col : CardColor) (ty : CardType) (v : Option Nat) : Nat :=
  (d.filter (fun c => decide (c.color = col ∧ c.type = ty ∧ c.value = v))).length

/-- One authoritative mutation of the match state: a draw for a seated
player (voluntary or forced, any requested count), a finalized play of the
card actually sitting at `index` of the acting player's hand, or a bare
turn advance (the pointer move that follows a voluntary draw). -/
inductive GameStep (sh : List Card → List Card) (targetScore : Nat) :
    GameState → GameState → Prop where
  | draw (i n : Nat) (s : GameState) (h : i < s.players.length) :
      GameStep sh targetScore s (drawCards sh i n s)
  | play (gameMode : GameMode) (isHost : Bool) (card : Card) (index : Nat)
      (wc : Option CardColor) (s : GameState)
      (h : (s.players[s.currentPlayerIndex]?).bind (fun p => p.hand[index]?)
            = some card) :
      GameStep sh targetScore s (finalizeMove sh targetScore gameMode isHost card index wc s)
  | advance (s : GameState) : GameStep sh targetScore s (nextTurn s)

/-! ## Elementary lemmas about the embedding -/

theorem updateAt_length (i : Nat) (f : Player → Player) :
    ∀ ps : List Player, (updateAt i f ps).length = ps.length := by
  induction i with
  | zero => intro ps; cases ps <;> simp [updateAt]
  | succ n ih => intro ps; cases ps <;> simp [updateAt, ih]

theorem getElem?_updateAt_self (f : Player → Player) :
    ∀ (i : Nat) (ps : List Player) (p : Player), ps[i]? = some p →
      (updateAt i f ps)[i]? = some (f p) := by
  intro i
  induction i with
  | zero => intro ps p h; cases ps <;> simp_all [updateAt]
  | succ n ih => intro ps p h; cases ps <;> simp_all [updateAt, ih]

theorem getElem?_updateAt_ne (f : Player → Player) :
    ∀ (i j : Nat), j ≠ i → ∀ ps : List Player,
      (updateAt i f ps)[j]? = ps[j]? := by
  intro i
  induction i with
  | zero =>
    intro j hj ps
    cases ps with
    | nil => rfl
    | cons p ps =>
      cases j with
      | zero => exact absurd rfl hj
      | succ m => simp [updateAt]
  | succ n ih =>
    intro j hj ps
    cases ps with
    | nil => rfl
    | cons p ps =>
      cases j with
      | zero => simp [updateAt]
      | succ m =>
        simp only [updateAt, List.getElem?_cons_succ]
        exact ih m (fun h => hj (by rw [h])) ps

theorem updateAt_congr (f g : Player → Player) :
    ∀ (i : Nat) (ps : List Player) (p : Player), ps[i]? = some p → f p = g p →
      updateAt i f ps = updateAt i g ps := by
  intro i
  induction i with
  | zero => intro ps p h hfg; cases ps <;> simp_all [updateAt]
  | succ n ih =>
    intro ps p h hfg
    cases ps with
    | nil => rfl
    | cons q ps =>
      simp only [List.getElem?_cons_succ] at h
      simp only [updateAt]; rw [ih ps p h hfg]

theorem updateAt_updateAt (f g : Player → Player) :
    ∀ (i : Nat) (ps : List Player),
      updateAt i f (updateAt i g ps) = updateAt i (fun p => f (g p)) ps := by
  intro i
  induction i with
  | zero => intro ps; cases ps <;> simp [updateAt]
  | succ n ih => intro ps; cases ps <;> simp [updateAt, ih]

theorem perm_cons_eraseIdx :
    ∀ (l : List Card) (i : Nat) (c : Card), l[i]? = some c →
      l.Perm (c :: l.eraseIdx i) := by
  intro l
  induction l with
  | nil => intro i c h; cases h
  | cons a l ih =>
    intro i c h
    cases i with
    | zero =>
      simp only [List.getElem?_cons_zero, Option.some_inj] at h
      subst h
      simp [List.eraseIdx]
    | succ n =>
      simp only [List.getElem?_cons_succ] at h
      have h1 : (a :: l).Perm (a :: (c :: l.eraseIdx n)) := (List.perm_cons a).mpr (ih n c h)
      exact h1.trans (List.Perm.swap c a _)

/-- All cards held in players' hands, in seat order. -/
def handsJoin (ps : List Player) : List Card :=
  (ps.map Player.hand).flatten

theorem handsJoin_updateAt_count (f : Player → Player) :
    ∀ (i : Nat) (ps : List Player) (p : Player), ps[i]? = some p → ∀ a : Card,
      (handsJoin (updateAt i f ps)).count a + p.hand.count a
        = (handsJoin ps).count a + ((f p).hand).count a := by
  intro i
  induction i with
  | zero =>
    intro ps p h a
    cases ps with
    | nil => cases h
    | cons q ps =>
      simp only [List.getElem?_cons_zero, Option.some_inj] at h
      subst h
      simp only [updateAt, handsJoin, List.map_cons, List.flatten_cons, List.count_append]
      omega
  | succ n ih =>
    intro ps p h a
    cases ps with
    | nil => cases h
    | cons q ps =>
      simp only [List.getElem?_cons_succ] at h
      have := ih ps p h a
      simp only [updateAt, handsJoin, List.map_cons, List.flatten_cons, List.count_append]
      simp only [handsJoin] at this
      omega

theorem handsJoin_updateAt_of_hand_eq (f : Player → Player)
    (hf : ∀ p, (f p).hand = p.hand) :
    ∀ (i : Nat) (ps : List Player), handsJoin (updateAt i f ps) = handsJoin ps := by
  intro i
  induction i with
  | zero =>
    intro ps
    cases ps with
    | nil => rfl
    | cons q ps => simp [updateAt, handsJoin, hf]
  | succ n ih =>
    intro ps
    cases ps with
    | nil => rfl
    | cons q ps =>
      simp only [updateAt, handsJoin, List.map_cons, List.flatten_cons]
      have := ih ps
      simp only [handsJoin] at this
      rw [this]

/-! ## C2: the move validator -/

/-- C2: `isValidMove c t k` returns true exactly when `c` is wild-colored
(BLACK), or `c`'s own color equals the active color `k`, or `c`'s type
equals `t`'s type — with equal numeric values additionally required for
number cards, type equality alone sufficing for every other type. -/
theorem isValidMove_iff_spec (c t : Card) (k : CardColor) :
    isValidMove c t k = true ↔
      (c.color = CardColor.BLACK ∨ c.color = k ∨
        (c.type = t.type ∧ (c.type = CardType.NUMBER → c.value = t.value))) := by
  unfold isValidMove
  by_cases h1 : c.color = CardColor.BLACK <;> by_cases h2 : c.color = k <;>
    by_cases h3 : c.type = t.type <;> by_cases h4 : c.type = CardType.NUMBER <;>
      simp [h1, h2, h3, h4] <;> tauto

/-! ## C3: deck composition -/

theorem countCards_perm {d d' : List Card} (h : d.Perm d')
    (col : CardColor) (ty : CardType) (v : Option Nat) :
    countCards d col ty v = countCards d' col ty v :=
  (h.filter _).length_eq

/-- C3: every deck returned by `createDeck` has exactly 108 cards with
pairwise-distinct ids and the exact multiset composition: per playable
color one 0, two each of 1-9, two skips, two reverses, two draw-twos,
plus four colorless wilds and four colorless wild-draw-fours. -/
theorem createDeck_composition (sh : List Card → List Card)
    (hsh : ∀ l : List Card, (sh l).Perm l) :
    (createDeck sh).length = 108 ∧
    ((createDeck sh).map Card.id).Nodup ∧
    (∀ color ∈ COLORS,
      countCards (createDeck sh) color CardType.NUMBER (some 0) = 1 ∧
      (∀ v : Fin 9, countCards (createDeck sh) color CardType.NUMBER (some (v.1 + 1)) = 2) ∧
      countCards (createDeck sh) color CardType.SKIP none = 2 ∧
      countCards (createDeck sh) color CardType.REVERSE none = 2 ∧
      countCards (createDeck sh) color CardType.DRAW_TWO none = 2) ∧
    countCards (createDeck sh) CardColor.BLACK CardType.WILD none = 4 ∧
    countCards (createDeck sh) CardColor.BLACK CardType.WILD_DRAW_FOUR none = 4 := by
  have hperm : (createDeck sh).Perm createDeckBase := hsh createDeckBase
  have hcount := countCards_perm hperm
  refine ⟨?_, ?_, ?_, ?_, ?_⟩
  · rw [hperm.length_eq]; decide
  · rw [(hperm.map Card.id).nodup_iff]; decide
  · intro color hcol
    refine ⟨?_, ?_, ?_, ?_, ?_⟩ <;>
      first
        | (rw [hcount]; revert hcol; revert color; decide)
        | (intro v; rw [hcount]; revert v; revert hcol; revert color; decide)
  · rw [hcount]; decide
  · rw [hcount]; decide

/-- Witness for C3 at the identity shuffle. -/
theorem createDeck_composition_witness :
    (createDeck id).length = 108 ∧
    ((createDeck id).map Card.id).Nodup ∧
    (∀ color ∈ COLORS,
      countCards (createDeck id) color CardType.NUMBER (some 0) = 1 ∧
      (∀ v : Fin 9, countCards (createDeck id) color CardType.NUMBER (some (v.1 + 1)) = 2) ∧
      countCards (createDeck id) color CardType.SKIP none = 2 ∧
      countCards (createDeck id) color CardType.REVERSE none = 2 ∧
      countCards (createDeck id) color CardType.DRAW_TWO none = 2) ∧
    countCards (createDeck id) CardColor.BLACK CardType.WILD none = 4 ∧
    countCards (createDeck id) CardColor.BLACK CardType.WILD_DRAW_FOUR none = 4 :=
  createDeck_composition id (fun l => List.Perm.refl l)

/-! ## C6: reverse equals skip with two players -/

/-- C6: with exactly two players, resolving a REVERSE card's effect
produces the same state as resolving a SKIP card's effect of the same
color: the direction is unchanged and the pointer is advanced once by the
effect. -/
theorem reverse_eq_skip_two_players (sh : List Card → List Card)
    (cR cS : Card) (s : GameState)
    (h2 : s.players.length = 2)
    (hR : cR.type = CardType.REVERSE) (hS : cS.type = CardType.SKIP)
    (hcol : cR.color = cS.color) :
    handleCardEffect sh cR s = handleCardEffect sh cS s ∧
    (handleCardEffect sh cR s).direction = s.direction ∧
    (handleCardEffect sh cR s).currentPlayerIndex
      = wrapIdx s.players.length s.direction s.currentPlayerIndex := by
  by_cases hc : cS.color = CardColor.BLACK <;>
    simp [handleCardEffect, hR, hS, hcol, hc, h2, nextTurn]

def sampleSkip : Card := ⟨119, CardColor.RED, CardType.SKIP, none⟩

def sampleReverse : Card := ⟨120, CardColor.RED, CardType.REVERSE, none⟩

def twoPlayerState : GameState :=
  { deck := [⟨1, CardColor.BLUE, CardType.NUMBER, some 3⟩],
    discardPile := [⟨2, CardColor.RED, CardType.NUMBER, some 5⟩],
    players :=
      [⟨"p1", "You", false, [⟨3, CardColor.GREEN, CardType.NUMBER, some 1⟩], 0⟩,
       ⟨"p2", "Gemini", true, [⟨4, CardColor.YELLOW, CardType.NUMBER, some 2⟩], 0⟩],
    currentPlayerIndex := 0, direction := 1, status := GameStatus.PLAYING,
    winner := none, roundWinner := none, pointsWon := 0,
    currentColor := CardColor.RED }

/-- Witness for C6 at a concrete two-player state. -/
theorem reverse_eq_skip_two_players_witness :
    handleCardEffect id sampleReverse twoPlayerState
      = handleCardEffect id sampleSkip twoPlayerState ∧
    (handleCardEffect id sampleReverse twoPlayerState).direction
      = twoPlayerState.direction ∧
    (handleCardEffect id sampleReverse twoPlayerState).currentPlayerIndex
      = wrapIdx twoPlayerState.players.length twoPlayerState.direction
          twoPlayerState.currentPlayerIndex :=
  reverse_eq_skip_two_players id sampleReverse sampleSkip twoPlayerState
    (by decide) (by decide) (by decide) (by decide)

/-! ## C9: stale move-requests are ignored by the authority -/

/-- C9: when the authority receives a move-request whose card id is not in
the follower's current hand, the state is unchanged and no state-snapshot
broadcast is sent. -/
theorem stale_move_request_ignored (sh : List Card → List Card)
    (targetScore : Nat) (cardId : Nat) (wc : Option CardColor)
    (s : GameState) (pl : Player)
    (hp : s.players[1]? = some pl)
    (habs : ∀ c ∈ pl.hand, c.id ≠ cardId) :
    hostHandleMove sh targetScore true cardId wc s = (s, false) := by
  have hfind : pl.hand.findIdx? (fun c => c.id == cardId) = none := by
    rw [List.findIdx?_eq_none_iff]
    intro c hc
    simpa using habs c hc
  simp [hostHandleMove, hp, hfind]

/-- Witness for C9: a request for id 999, absent from the follower's hand,
is ignored. -/
theorem stale_move_request_ignored_witness :
    hostHandleMove id 500 true 999 none twoPlayerState = (twoPlayerState, false) :=
  stale_move_request_ignored id 500 999 none twoPlayerState
    ⟨"p2", "Gemini", true, [⟨4, CardColor.YELLOW, CardType.NUMBER, some 2⟩], 0⟩
    (by decide) (by decide)

/-! ## C8: rejection of illegal moves -/

/-- C8 (amended): a local play attempt whose card fails `isValidMove`
against the current top discard card and active color leaves the match
state unchanged — the move is rejected before any mutation.  (The
authority path for follower move-requests does not re-validate; see the
counterexample.) -/
theorem invalid_local_play_rejected (sh : List Card → List Card)
    (targetScore : Nat) (gameMode : GameMode) (isHost : Bool)
    (card : Card) (index : Nat) (s : GameState) (t : Card)
    (htop : s.discardPile.getLast? = some t)
    (hinv : isValidMove card t s.currentColor = false) :
    handleHumanPlay sh targetScore gameMode isHost card index s = s := by
  simp only [handleHumanPlay, htop]
  split
  · rfl
  · split
    · rfl
    · simp [hinv]

def invalidSkip : Card := ⟨60, CardColor.BLUE, CardType.SKIP, none⟩

/-- A networked state in which it is the follower's turn and the
follower's hand holds a blue skip that is illegal on a red 5 with active
color red. -/
def staleFollowerState : GameState :=
  { deck := [⟨10, CardColor.GREEN, CardType.NUMBER, some 4⟩],
    discardPile := [⟨2, CardColor.RED, CardType.NUMBER, some 5⟩],
    players :=
      [⟨"host", "Host (You)", false, [⟨3, CardColor.GREEN, CardType.NUMBER, some 1⟩], 0⟩,
       ⟨"client", "Opponent", false, [invalidSkip, ⟨5, CardColor.RED, CardType.NUMBER, some 7⟩], 0⟩],
    currentPlayerIndex := 1, direction := 1, status := GameStatus.PLAYING,
    winner := none, roundWinner := none, pointsWon := 0,
    currentColor := CardColor.RED }

/-- Counterexample to C8 as stated: the authority applies a follower
move-request whose card fails `isValidMove` — the state is mutated (and a
broadcast sent), so the claim's authority clause is false. -/
theorem authority_applies_invalid_move :
    isValidMove invalidSkip
        ⟨2, CardColor.RED, CardType.NUMBER, some 5⟩ staleFollowerState.currentColor
      = false ∧
    (hostHandleMove id 500 true 60 none staleFollowerState).1 ≠ staleFollowerState ∧
    (hostHandleMove id 500 true 60 none staleFollowerState).2 = true := by
  decide

/-- Witness for the amended C8: the same illegal blue skip attempted as a
local play is rejected with no state change. -/
theorem invalid_local_play_rejected_witness :
    handleHumanPlay id 500 GameMode.LOCAL false invalidSkip 0 staleFollowerState
      = staleFollowerState :=
  invalid_local_play_rejected id 500 GameMode.LOCAL false invalidSkip 0
    staleFollowerState ⟨2, CardColor.RED, CardType.NUMBER, some 5⟩
    (by decide) (by decide)

/-! ## C7: reshuffle-on-empty draw mechanics -/

/-- C7: when a draw of `n` is requested with fewer than `n` cards in the
deck and more than one card on the discard pile, the pile is reduced to
its former top card alone, the rest being recycled into the deck, and
exactly `min n (deck + discard - 1)` cards are dealt to the drawing
player — as many as requested when available, otherwise all that remain,
never an error. -/
theorem drawCards_reshuffle (sh : List Card → List Card)
    (hsh : ∀ l : List Card, (sh l).Perm l)
    (i n : Nat) (s : GameState) (p : Player) (t : Card)
    (hp : s.players[i]? = some p)
    (hdeck : s.deck.length < n) (hdisc : 1 < s.discardPile.length)
    (htop : s.discardPile.getLast? = some t) :
    (drawCards sh i n s).discardPile = [t] ∧
    ((drawCards sh i n s).players[i]?).map (fun q => q.hand.length)
      = some (p.hand.length + min n (s.deck.length + (s.discardPile.length - 1))) ∧
    (drawCards sh i n s).deck.length
      = (s.deck.length + (s.discardPile.length - 1))
          - min n (s.deck.length + (s.discardPile.length - 1)) := by
  have hlen : (sh s.discardPile.dropLast).length = s.discardPile.length - 1 := by
    rw [(hsh _).length_eq, List.length_dropLast]
  refine ⟨?_, ?_, ?_⟩
  · unfold drawCards
    simp only [if_pos hdeck, if_pos hdisc, htop]
  · unfold drawCards
    simp only [if_pos hdeck, if_pos hdisc, htop]
    rw [getElem?_updateAt_self _ i s.players p hp]
    simp only [Option.map_some', Option.some.injEq, List.length_append, List.length_take]
    rw [hlen]
    omega
  · unfold drawCards
    simp only [if_pos hdeck, if_pos hdisc, htop, List.length_drop, List.length_append]
    rw [hlen]

/-- A state with one card in the deck and five on the discard pile. -/
def reshuffleState : GameState :=
  { deck := [⟨0, CardColor.RED, CardType.NUMBER, some 0⟩],
    discardPile :=
      [⟨1, CardColor.RED, CardType.NUMBER, some 1⟩,
       ⟨2, CardColor.RED, CardType.NUMBER, some 2⟩,
       ⟨3, CardColor.RED, CardType.NUMBER, some 3⟩,
       ⟨4, CardColor.RED, CardType.NUMBER, some 4⟩,
       ⟨5, CardColor.RED, CardType.NUMBER, some 5⟩],
    players :=
      [⟨"p1", "You", false, [⟨6, CardColor.BLUE, CardType.NUMBER, some 6⟩], 0⟩,
       ⟨"p2", "Gemini", true, [⟨7, CardColor.GREEN, CardType.NUMBER, some 7⟩], 0⟩],
    currentPlayerIndex := 0, direction := 1, status := GameStatus.PLAYING,
    winner := none, roundWinner := none, pointsWon := 0,
    currentColor := CardColor.RED }

/-- Witness for C7: with 1 card in the deck and 5 on the discard pile, a
draw of 3 succeeds with exactly 3 cards and leaves the pile holding only
its former top card. -/
theorem drawCards_reshuffle_witness :
    (drawCards id 0 3 reshuffleState).discardPile
      = [⟨5, CardColor.RED, CardType.NUMBER, some 5⟩] ∧
    ((drawCards id 0 3 reshuffleState).players[0]?).map (fun q => q.hand.length)
      = some (1 + min 3 (1 + (5 - 1))) ∧
    (drawCards id 0 3 reshuffleState).deck.length
      = (1 + (5 - 1)) - min 3 (1 + (5 - 1)) :=
  drawCards_reshuffle id (fun l => List.Perm.refl l) 0 3 reshuffleState
    ⟨"p1", "You", false, [⟨6, CardColor.BLUE, CardType.NUMBER, some 6⟩], 0⟩
    ⟨5, CardColor.RED, CardType.NUMBER, some 5⟩
    (by decide) (by decide) (by decide) (by decide)

/-! ## The round-end branch of finalizeMove (used by C4 and C10) -/

/-- The per-card valuation of spec section 4.5: face value for number
cards, 20 for skip/reverse/draw-two, 50 for wild and wild-draw-four. -/
def cardPoints (c : Card) : Nat :=
  match c.type with
  | CardType.NUMBER => c.value.getD 0
  | CardType.SKIP => 20
  | CardType.REVERSE => 20
  | CardType.DRAW_TWO => 20
  | CardType.WILD => 50
  | CardType.WILD_DRAW_FOUR => 50

theorem calculateHandScore_eq_sum (hand : List Card) :
    calculateHandScore hand = (hand.map cardPoints).sum := by
  have gen : ∀ (l : List Card) (acc : Nat),
      l.foldl (fun total card =>
        if card.type = CardType.NUMBER then total + card.value.getD 0
        else if card.type = CardType.SKIP ∨ card.type = CardType.REVERSE
                ∨ card.type = CardType.DRAW_TWO then total + 20
        else if card.type = CardType.WILD ∨ card.type = CardType.WILD_DRAW_FOUR then total + 50
        else total) acc = acc + (l.map cardPoints).sum := by
    intro l
    induction l with
    | nil => intro acc; simp
    | cons c l ih =>
      intro acc
      simp only [List.foldl_cons, List.map_cons, List.sum_cons, ih]
      cases h : c.type <;> simp [cardPoints, h] <;> omega
  have hg := gen hand 0
  unfold calculateHandScore
  omega

theorem foldl_add_handScore :
    ∀ (l : List (Nat × Player)) (acc : Nat),
      l.foldl (fun a ip => a + calculateHandScore ip.2.hand) acc
        = acc + (l.map (fun ip => calculateHandScore ip.2.hand)).sum := by
  intro l
  induction l with
  | nil => intro acc; simp
  | cons x l ih => intro acc; simp only [List.foldl_cons, List.map_cons, List.sum_cons, ih]; omega

theorem enumFrom_filter_updateAt (f : Player → Player) :
    ∀ (ps : List Player) (k i : Nat),
      ((updateAt i f ps).enumFrom k).filter (fun ip => ip.1 != (k + i))
        = (ps.enumFrom k).filter (fun ip => ip.1 != (k + i)) := by
  intro ps
  induction ps with
  | nil => intro k i; cases i <;> rfl
  | cons p ps ih =>
    intro k i
    cases i with
    | zero =>
      simp [updateAt, List.filter_cons]
    | succ j =>
      have hne : (k != (k + (j + 1))) = true := by
        simp only [bne_iff_ne]; omega
      have e : k + (j + 1) = (k + 1) + j := by omega
      simp only [updateAt, List.enumFrom_cons, List.filter_cons, hne, if_pos]
      rw [e, ih (k + 1) j]

theorem enum_filter_updateAt (f : Player → Player) (ps : List Player) (i : Nat) :
    ((updateAt i f ps).enum).filter (fun ip => ip.1 != i)
      = (ps.enum).filter (fun ip => ip.1 != i) := by
  have := enumFrom_filter_updateAt f ps 0 i
  simpa [List.enum] using this

/-- Explicit form of `finalizeMove` on the authority when the play empties
the acting player's hand: the card moves to the discard pile, the winner's
hand empties and their score grows by the other hands' total, the
round-result fields are set, the status becomes game-over or round-over by
the target-score comparison, and nothing else changes (except the active
color when a chosen wild color applies). -/
theorem finalizeMove_win_eq (sh : List Card → List Card) (targetScore : Nat)
    (gameMode : GameMode) (isHost : Bool) (card : Card) (index : Nat)
    (wc : Option CardColor) (s : GameState) (p : Player)
    (hauth : ¬(gameMode = GameMode.ONLINE ∧ isHost = false))
    (hp : s.players[s.currentPlayerIndex]? = some p)
    (hw : p.hand.eraseIdx index = []) :
    finalizeMove sh targetScore gameMode isHost card index wc s =
      { deck := s.deck,
        discardPile := s.discardPile ++ [card],
        players := updateAt s.currentPlayerIndex
          (fun q => { q with hand := q.hand.eraseIdx index,
                             score := q.score
                               + otherHandsTotal s.currentPlayerIndex s.players })
          s.players,
        currentPlayerIndex := s.currentPlayerIndex,
        direction := s.direction,
        status := if targetScore ≤ p.score + otherHandsTotal s.currentPlayerIndex s.players
                  then GameStatus.GAME_OVER else GameStatus.ROUND_OVER,
        winner := if targetScore ≤ p.score + otherHandsTotal s.currentPlayerIndex s.players
                  then some p.name else s.winner,
        roundWinner := some p.name,
        pointsWon := otherHandsTotal s.currentPlayerIndex s.players,
        currentColor := match wc with
          | some c => if card.color = CardColor.BLACK then c else s.currentColor
          | none => s.currentColor } := by
  have hop :
      ((updateAt s.currentPlayerIndex (fun q => { q with hand := q.hand.eraseIdx index })
          s.players).enum.filter (fun ip => ip.1 != s.currentPlayerIndex)).foldl
        (fun acc ip => acc + calculateHandScore ip.2.hand) 0
      = otherHandsTotal s.currentPlayerIndex s.players := by
    rw [foldl_add_handScore, enum_filter_updateAt]
    simp [otherHandsTotal]
  simp only [finalizeMove]
  rw [if_neg hauth, hp]
  simp only [hw, List.isEmpty_nil, if_pos]
  cases wc with
  | none =>
    simp only [hop, updateAt_updateAt]
    split <;> rfl
  | some c =>
    by_cases hb : card.color = CardColor.BLACK <;>
      simp only [hb, if_pos, if_neg, ite_true, ite_false, hop, updateAt_updateAt] <;>
        (split <;> rfl)

/-! ## C4: round-end scoring and match-over detection -/

/-- C4: whenever a play empties the acting player's hand, their cumulative
score grows by exactly the total of `calculateHandScore` over every other
player's remaining hand — number cards counting their face value, 20 per
skip/reverse/draw-two and 50 per wild and wild-draw-four — and the status
becomes game-over exactly when the new cumulative score reaches the target
score, round-over otherwise. -/
theorem round_end_scoring (sh : List Card → List Card) (targetScore : Nat)
    (gameMode : GameMode) (isHost : Bool) (card : Card) (index : Nat)
    (wc : Option CardColor) (s : GameState) (p : Player)
    (hauth : ¬(gameMode = GameMode.ONLINE ∧ isHost = false))
    (hp : s.players[s.currentPlayerIndex]? = some p)
    (hw : p.hand.eraseIdx index = []) :
    ((finalizeMove sh targetScore gameMode isHost card index wc s).players[s.currentPlayerIndex]?).map
        Player.score
      = some (p.score + otherHandsTotal s.currentPlayerIndex s.players) ∧
    ((finalizeMove sh targetScore gameMode isHost card index wc s).status = GameStatus.GAME_OVER
      ↔ targetScore ≤ p.score + otherHandsTotal s.currentPlayerIndex s.players) ∧
    ((finalizeMove sh targetScore gameMode isHost card index wc s).status = GameStatus.ROUND_OVER
      ↔ p.score + otherHandsTotal s.currentPlayerIndex s.players < targetScore) ∧
    otherHandsTotal s.currentPlayerIndex s.players
      = ((s.players.enum.filter (fun ip => ip.1 != s.currentPlayerIndex)).map
          (fun ip => (ip.2.hand.map cardPoints).sum)).sum := by
  rw [finalizeMove_win_eq sh targetScore gameMode isHost card index wc s p hauth hp hw]
  refine ⟨?_, ?_, ?_, ?_⟩
  · rw [getElem?_updateAt_self _ s.currentPlayerIndex s.players p hp]
    simp
  · by_cases h : targetScore ≤ p.score + otherHandsTotal s.currentPlayerIndex s.players <;>
      simp [h]
  · by_cases h : targetScore ≤ p.score + otherHandsTotal s.currentPlayerIndex s.players <;>
      simp [h] <;> omega
  · simp [otherHandsTotal, calculateHandScore_eq_sum]

/-- A state in which the acting player holds a single red 5 and the
opponent holds a seven and a skip (27 points). -/
def winState : GameState :=
  { deck := [⟨10, CardColor.GREEN, CardType.NUMBER, some 4⟩],
    discardPile := [⟨2, CardColor.RED, CardType.NUMBER, some 3⟩],
    players :=
      [⟨"p1", "You", false, [⟨3, CardColor.RED, CardType.NUMBER, some 5⟩], 0⟩,
       ⟨"p2", "Gemini", true,
        [⟨4, CardColor.BLUE, CardType.NUMBER, some 7⟩,
         ⟨5, CardColor.YELLOW, CardType.SKIP, none⟩], 0⟩],
    currentPlayerIndex := 0, direction := 1, status := GameStatus.PLAYING,
    winner := none, roundWinner := none, pointsWon := 0,
    currentColor := CardColor.RED }

/-- Witness for C4: playing the last red 5 awards 27 points (7 + 20) and,
with target 500 unreached, ends in round-over. -/
theorem round_end_scoring_witness :
    ((finalizeMove id 500 GameMode.AI true ⟨3, CardColor.RED, CardType.NUMBER, some 5⟩
        0 none winState).players[winState.currentPlayerIndex]?).map Player.score
      = some (0 + otherHandsTotal winState.currentPlayerIndex winState.players) ∧
    ((finalizeMove id 500 GameMode.AI true ⟨3, CardColor.RED, CardType.NUMBER, some 5⟩
        0 none winState).status = GameStatus.GAME_OVER
      ↔ 500 ≤ 0 + otherHandsTotal winState.currentPlayerIndex winState.players) ∧
    ((finalizeMove id 500 GameMode.AI true ⟨3, CardColor.RED, CardType.NUMBER, some 5⟩
        0 none winState).status = GameStatus.ROUND_OVER
      ↔ 0 + otherHandsTotal winState.currentPlayerIndex winState.players < 500) ∧
    otherHandsTotal winState.currentPlayerIndex winState.players
      = ((winState.players.enum.filter
            (fun ip => ip.1 != winState.currentPlayerIndex)).map
          (fun ip => (ip.2.hand.map cardPoints).sum)).sum :=
  round_end_scoring id 500 GameMode.AI true ⟨3, CardColor.RED, CardType.NUMBER, some 5⟩
    0 none winState ⟨"p1", "You", false, [⟨3, CardColor.RED, CardType.NUMBER, some 5⟩], 0⟩
    (by decide) (by decide) (by decide)

/-! ## C10: frame of a winning play -/

/-- C10 (amended): when a play empties the acting player's hand the card
effect is not resolved — no opponent draws, and the deck, direction,
current-player index and every other player's hand are unchanged; only the
discard pile, the winning player's hand and score, the status/round-result
fields, and (when the final card is a wild with a chosen color) the active
color change. -/
theorem winning_play_frame (sh : List Card → List Card) (targetScore : Nat)
    (gameMode : GameMode) (isHost : Bool) (card : Card) (index : Nat)
    (wc : Option CardColor) (s : GameState) (p : Player)
    (hauth : ¬(gameMode = GameMode.ONLINE ∧ isHost = false))
    (hp : s.players[s.currentPlayerIndex]? = some p)
    (hw : p.hand.eraseIdx index = []) :
    (finalizeMove sh targetScore gameMode isHost card index wc s).deck = s.deck ∧
    (finalizeMove sh targetScore gameMode isHost card index wc s).direction = s.direction ∧
    (finalizeMove sh targetScore gameMode isHost card index wc s).currentPlayerIndex
      = s.currentPlayerIndex ∧
    (∀ j, j ≠ s.currentPlayerIndex →
      (finalizeMove sh targetScore gameMode isHost card index wc s).players[j]?
        = s.players[j]?) ∧
    (finalizeMove sh targetScore gameMode isHost card index wc s).discardPile
      = s.discardPile ++ [card] ∧
    ((finalizeMove sh targetScore gameMode isHost card index wc s).players[s.currentPlayerIndex]?).map
        Player.hand = some [] ∧
    (finalizeMove sh targetScore gameMode isHost card index wc s).currentColor
      = (match wc with
          | some c => if card.color = CardColor.BLACK then c else s.currentColor
          | none => s.currentColor) := by
  rw [finalizeMove_win_eq sh targetScore gameMode isHost card index wc s p hauth hp hw]
  refine ⟨rfl, rfl, rfl, ?_, rfl, ?_, rfl⟩
  · intro j hj
    exact getElem?_updateAt_ne _ s.currentPlayerIndex j hj s.players
  · rw [getElem?_updateAt_self _ s.currentPlayerIndex s.players p hp]
    simp [hw]

def winningWild : Card := ⟨100, CardColor.BLACK, CardType.WILD, none⟩

/-- A state in which the acting player's last card is a wild and the
active color is red. -/
def wildWinState : GameState :=
  { deck := [⟨10, CardColor.GREEN, CardType.NUMBER, some 4⟩],
    discardPile := [⟨2, CardColor.RED, CardType.NUMBER, some 3⟩],
    players :=
      [⟨"p1", "You", false, [winningWild], 0⟩,
       ⟨"p2", "Gemini", true,
        [⟨4, CardColor.BLUE, CardType.NUMBER, some 7⟩,
         ⟨5, CardColor.YELLOW, CardType.SKIP, none⟩], 0⟩],
    currentPlayerIndex := 0, direction := 1, status := GameStatus.PLAYING,
    winner := none, roundWinner := none, pointsWon := 0,
    currentColor := CardColor.RED }

/-- Counterexample to C10 as stated: winning with a wild and chosen color
green changes the active color, a field outside the claim's list of
permitted changes. -/
theorem wild_win_changes_active_color :
    (wildWinState.players[0]?).map (fun q => q.hand.length) = some 1 ∧
    wildWinState.currentPlayerIndex = 0 ∧
    (finalizeMove id 500 GameMode.AI true winningWild 0 (some CardColor.GREEN)
        wildWinState).currentColor
      ≠ wildWinState.currentColor := by
  decide

/-- Witness for the amended C10 at the wild winning play. -/
theorem winning_play_frame_witness :
    (finalizeMove id 500 GameMode.AI true winningWild 0 (some CardColor.GREEN)
        wildWinState).deck = wildWinState.deck ∧
    (finalizeMove id 500 GameMode.AI true winningWild 0 (some CardColor.GREEN)
        wildWinState).direction = wildWinState.direction ∧
    (finalizeMove id 500 GameMode.AI true winningWild 0 (some CardColor.GREEN)
        wildWinState).currentPlayerIndex = wildWinState.currentPlayerIndex ∧
    (∀ j, j ≠ wildWinState.currentPlayerIndex →
      (finalizeMove id 500 GameMode.AI true winningWild 0 (some CardColor.GREEN)
          wildWinState).players[j]? = wildWinState.players[j]?) ∧
    (finalizeMove id 500 GameMode.AI true winningWild 0 (some CardColor.GREEN)
        wildWinState).discardPile = wildWinState.discardPile ++ [winningWild] ∧
    ((finalizeMove id 500 GameMode.AI true winningWild 0 (some CardColor.GREEN)
        wildWinState).players[wildWinState.currentPlayerIndex]?).map Player.hand
      = some [] ∧
    (finalizeMove id 500 GameMode.AI true winningWild 0 (some CardColor.GREEN)
        wildWinState).currentColor
      = (match some CardColor.GREEN with
          | some c => if winningWild.color = CardColor.BLACK then c
                      else wildWinState.currentColor
          | none => wildWinState.currentColor) :=
  winning_play_frame id 500 GameMode.AI true winningWild 0 (some CardColor.GREEN)
    wildWinState ⟨"p1", "You", false, [winningWild], 0⟩
    (by decide) (by decide) (by decide)

/-! ## C5: draw-two and wild-draw-four effects -/

theorem nextTurn_players (x : GameState) : (nextTurn x).players = x.players := rfl

theorem nextTurn_direction (x : GameState) : (nextTurn x).direction = x.direction := rfl

theorem nextTurn_currentPlayerIndex (x : GameState) :
    (nextTurn x).currentPlayerIndex
      = wrapIdx x.players.length x.direction x.currentPlayerIndex := rfl

theorem drawCards_currentPlayerIndex (sh : List Card → List Card) (i n : Nat)
    (st : GameState) : (drawCards sh i n st).currentPlayerIndex = st.currentPlayerIndex := rfl

theorem drawCards_direction (sh : List Card → List Card) (i n : Nat)
    (st : GameState) : (drawCards sh i n st).direction = st.direction := rfl

theorem drawCards_players_length (sh : List Card → List Card) (i n : Nat)
    (st : GameState) : (drawCards sh i n st).players.length = st.players.length := by
  simp [drawCards, updateAt_length]

theorem wrapIdx_lt (len : Nat) (dir : Int) (i : Nat) (h : 0 < len) :
    wrapIdx len dir i < len := by
  simp only [wrapIdx]
  split
  · exact h
  · split <;> omega

theorem wrapIdx_ne (len : Nat) (dir : Int) (i : Nat)
    (h2 : 2 ≤ len) (hi : i < len) (hdir : dir = 1 ∨ dir = -1) :
    wrapIdx len dir i ≠ i := by
  simp only [wrapIdx]
  rcases hdir with h | h
  · subst h
    split
    · omega
    · split <;> omega
  · subst h
    split
    · omega
    · split <;> omega

theorem wrapIdx_two (dir : Int) (i : Nat) (hdir : dir = 1 ∨ dir = -1) (hi : i < 2) :
    wrapIdx 2 dir (wrapIdx 2 dir i) = i := by
  rcases hdir with h | h <;> subst h <;> interval_cases i <;> decide

/-- The intermediate state built by `finalizeMove` before the win check:
the card is appended to the discard pile, spliced out of the acting
player's hand, and a chosen wild color is applied. -/
def playedState (card : Card) (index : Nat) (wc : Option CardColor)
    (s : GameState) : GameState :=
  { s with
      players := updateAt s.currentPlayerIndex
        (fun r => { r with hand := r.hand.eraseIdx index }) s.players,
      discardPile := s.discardPile ++ [card],
      currentColor := match wc with
        | some c => if card.color = CardColor.BLACK then c else s.currentColor
        | none => s.currentColor }

theorem playedState_players_length (card : Card) (index : Nat)
    (wc : Option CardColor) (s : GameState) :
    (playedState card index wc s).players.length = s.players.length := by
  simp [playedState, updateAt_length]

theorem playedState_direction (card : Card) (index : Nat)
    (wc : Option CardColor) (s : GameState) :
    (playedState card index wc s).direction = s.direction := rfl

theorem playedState_currentPlayerIndex (card : Card) (index : Nat)
    (wc : Option CardColor) (s : GameState) :
    (playedState card index wc s).currentPlayerIndex = s.currentPlayerIndex := rfl

theorem playedState_deck (card : Card) (index : Nat)
    (wc : Option CardColor) (s : GameState) :
    (playedState card index wc s).deck = s.deck := rfl

theorem playedState_discardPile (card : Card) (index : Nat)
    (wc : Option CardColor) (s : GameState) :
    (playedState card index wc s).discardPile = s.discardPile ++ [card] := rfl

theorem playedState_players_getElem_ne (card : Card) (index : Nat)
    (wc : Option CardColor) (s : GameState) (j : Nat)
    (hj : j ≠ s.currentPlayerIndex) :
    (playedState card index wc s).players[j]? = s.players[j]? :=
  getElem?_updateAt_ne _ s.currentPlayerIndex j hj s.players

/-- Explicit form of `finalizeMove` on the authority when the play does
not empty the acting player's hand: splice the card out, put it on the
discard pile, apply a chosen wild color, resolve the effect, advance the
turn. -/
theorem finalizeMove_effect_eq (sh : List Card → List Card) (targetScore : Nat)
    (gameMode : GameMode) (isHost : Bool) (card : Card) (index : Nat)
    (wc : Option CardColor) (s : GameState) (p : Player)
    (hauth : ¬(gameMode = GameMode.ONLINE ∧ isHost = false))
    (hp : s.players[s.currentPlayerIndex]? = some p)
    (hw : p.hand.eraseIdx index ≠ []) :
    finalizeMove sh targetScore gameMode isHost card index wc s =
      nextTurn (handleCardEffect sh card (playedState card index wc s)) := by
  simp only [finalizeMove, playedState]
  rw [if_neg hauth, hp]
  have hne : (p.hand.eraseIdx index).isEmpty = false := List.isEmpty_eq_false.mpr hw
  simp only [hne, Bool.false_eq_true, if_false]
  cases wc with
  | none => rfl
  | some c => by_cases hb : card.color = CardColor.BLACK <;> simp [hb]

/-- The draw-two / wild-draw-four arms of `handleCardEffect`: the victim
is the clamped advance of the current index by the direction, computed
before any pointer move; that player draws 2 or 4 and then the pointer
advances once here. -/
theorem handleCardEffect_draw_eq (sh : List Card → List Card) (card : Card)
    (st : GameState)
    (htype : card.type = CardType.DRAW_TWO ∨ card.type = CardType.WILD_DRAW_FOUR) :
    handleCardEffect sh card st =
      nextTurn (drawCards sh
        (wrapIdx st.players.length st.direction st.currentPlayerIndex)
        (if card.type = CardType.DRAW_TWO then 2 else 4)
        (if card.color = CardColor.BLACK then st
         else { st with currentColor := card.color })) := by
  rcases htype with h | h <;>
    by_cases hb : card.color = CardColor.BLACK <;>
      simp [handleCardEffect, h, hb]

/-- Hand growth of the drawing player in `drawCards` when enough cards are
available in the deck, or in the deck plus the recyclable discard
remainder. -/
theorem drawCards_hand_growth (sh : List Card → List Card)
    (hsh : ∀ l : List Card, (sh l).Perm l)
    (i n : Nat) (st : GameState) (q : Player)
    (hq : st.players[i]? = some q)
    (havail : n ≤ st.deck.length + (st.discardPile.length - 1))
    (hrecycle : st.deck.length < n → 1 < st.discardPile.length) :
    ((drawCards sh i n st).players[i]?).map (fun r => r.hand.length)
      = some (q.hand.length + n) := by
  by_cases hd : st.deck.length < n
  · have hdisc : 1 < st.discardPile.length := hrecycle hd
    have hne : st.discardPile ≠ [] := by
      intro h; rw [h] at hdisc; simp at hdisc
    have ht := List.getLast?_eq_getLast st.discardPile hne
    have h2 := (drawCards_reshuffle sh hsh i n st q _ hq hd hdisc ht).2.1
    rw [h2]
    have hmin : min n (st.deck.length + (st.discardPile.length - 1)) = n := by omega
    rw [hmin]
  · unfold drawCards
    simp only [if_neg hd]
    rw [getElem?_updateAt_self _ i st.players q hq]
    simp only [Option.map_some', Option.some.injEq, List.length_append, List.length_take]
    omega

/-- Effect resolution plus post-play advance for a draw-two or
wild-draw-four: the victim (clamped advance of the current index) gains
the forced cards and the pointer ends two advances past the acting
player. -/
theorem draw_effect_core (sh : List Card → List Card)
    (hsh : ∀ l : List Card, (sh l).Perm l)
    (card : Card) (st : GameState) (q : Player)
    (htype : card.type = CardType.DRAW_TWO ∨ card.type = CardType.WILD_DRAW_FOUR)
    (hq : st.players[wrapIdx st.players.length st.direction st.currentPlayerIndex]?
      = some q)
    (havail : (if card.type = CardType.DRAW_TWO then 2 else 4)
      ≤ st.deck.length + (st.discardPile.length - 1))
    (hrecycle : st.deck.length < (if card.type = CardType.DRAW_TWO then 2 else 4)
      → 1 < st.discardPile.length) :
    ((nextTurn (handleCardEffect sh card st)).players[
        wrapIdx st.players.length st.direction st.currentPlayerIndex]?).map
      (fun r => r.hand.length)
      = some (q.hand.length + (if card.type = CardType.DRAW_TWO then 2 else 4)) ∧
    (nextTurn (handleCardEffect sh card st)).currentPlayerIndex
      = wrapIdx st.players.length st.direction
          (wrapIdx st.players.length st.direction st.currentPlayerIndex) := by
  rw [handleCardEffect_draw_eq sh card st htype]
  by_cases hb : card.color = CardColor.BLACK
  · simp only [if_pos hb]
    constructor
    · simp only [nextTurn_players]
      exact drawCards_hand_growth sh hsh _ _ st q hq havail hrecycle
    · simp only [nextTurn_currentPlayerIndex, nextTurn_players, nextTurn_direction,
        drawCards_players_length, drawCards_direction, drawCards_currentPlayerIndex]
  · simp only [if_neg hb]
    constructor
    · simp only [nextTurn_players]
      exact drawCards_hand_growth sh hsh _ _ _ q hq havail hrecycle
    · simp only [nextTurn_currentPlayerIndex, nextTurn_players, nextTurn_direction,
        drawCards_players_length, drawCards_direction, drawCards_currentPlayerIndex]

/-- C5 (amended): when the acting player plays a draw-two (respectively
wild-draw-four) without emptying their hand, and at least 2 (respectively
4) cards are available across the deck and the discard pile, the player
immediately next in the current direction (computed before any advance)
gains exactly 2 (respectively 4) cards, and after effect resolution plus
the normal post-play advance the pointer has passed over that drawing
player — with two players, play returns to the player who played the
card.  (Without the availability hypothesis the drawing player receives
only as many cards as remain; see the counterexample.) -/
theorem forced_draw_effect (sh : List Card → List Card)
    (hsh : ∀ l : List Card, (sh l).Perm l)
    (targetScore : Nat) (gameMode : GameMode) (isHost : Bool)
    (card : Card) (index : Nat) (wc : Option CardColor)
    (s : GameState) (p q : Player)
    (hauth : ¬(gameMode = GameMode.ONLINE ∧ isHost = false))
    (hp : s.players[s.currentPlayerIndex]? = some p)
    (hcard : p.hand[index]? = some card)
    (htype : card.type = CardType.DRAW_TWO ∨ card.type = CardType.WILD_DRAW_FOUR)
    (hbig : 2 ≤ p.hand.length)
    (hlen : 2 ≤ s.players.length)
    (hdir : s.direction = 1 ∨ s.direction = -1)
    (hq : s.players[wrapIdx s.players.length s.direction s.currentPlayerIndex]? = some q)
    (havail : (if card.type = CardType.DRAW_TWO then 2 else 4)
                ≤ s.deck.length + s.discardPile.length) :
    wrapIdx s.players.length s.direction s.currentPlayerIndex ≠ s.currentPlayerIndex ∧
    ((finalizeMove sh targetScore gameMode isHost card index wc s).players[
        wrapIdx s.players.length s.direction s.currentPlayerIndex]?).map
      (fun r => r.hand.length)
      = some (q.hand.length + (if card.type = CardType.DRAW_TWO then 2 else 4)) ∧
    (finalizeMove sh targetScore gameMode isHost card index wc s).currentPlayerIndex
      = wrapIdx s.players.length s.direction
          (wrapIdx s.players.length s.direction s.currentPlayerIndex) ∧
    (s.players.length = 2 →
      (finalizeMove sh targetScore gameMode isHost card index wc s).currentPlayerIndex
        = s.currentPlayerIndex) := by
  have hidx : index < p.hand.length := by
    by_contra h
    rw [List.getElem?_eq_none (Nat.le_of_not_lt h)] at hcard
    cases hcard
  have hcpi : s.currentPlayerIndex < s.players.length := by
    by_contra h
    rw [List.getElem?_eq_none (Nat.le_of_not_lt h)] at hp
    cases hp
  have hvne : wrapIdx s.players.length s.direction s.currentPlayerIndex
      ≠ s.currentPlayerIndex :=
    wrapIdx_ne s.players.length s.direction s.currentPlayerIndex hlen hcpi hdir
  have hnonempty : p.hand.eraseIdx index ≠ [] := by
    have hl := List.length_eraseIdx_of_lt hidx
    intro h
    rw [h] at hl
    simp at hl
    omega
  rw [finalizeMove_effect_eq sh targetScore gameMode isHost card index wc s p
    hauth hp hnonempty]
  have hq2 : (playedState card index wc s).players[
      wrapIdx (playedState card index wc s).players.length
        (playedState card index wc s).direction
        (playedState card index wc s).currentPlayerIndex]? = some q := by
    rw [playedState_players_length, playedState_direction, playedState_currentPlayerIndex]
    rw [playedState_players_getElem_ne card index wc s _ hvne]
    exact hq
  have havail2 : (if card.type = CardType.DRAW_TWO then 2 else 4)
      ≤ (playedState card index wc s).deck.length
        + ((playedState card index wc s).discardPile.length - 1) := by
    rw [playedState_deck, playedState_discardPile]
    rcases htype with h | h <;> simp [h, List.length_append] at havail ⊢ <;> omega
  have hrecycle2 : (playedState card index wc s).deck.length
        < (if card.type = CardType.DRAW_TWO then 2 else 4)
      → 1 < (playedState card index wc s).discardPile.length := by
    rw [playedState_deck, playedState_discardPile]
    intro hlt
    rcases htype with h | h <;> simp [h, List.length_append] at hlt havail ⊢ <;> omega
  have hcore := draw_effect_core sh hsh card (playedState card index wc s) q
    htype hq2 havail2 hrecycle2
  rw [playedState_players_length, playedState_direction,
    playedState_currentPlayerIndex] at hcore
  refine ⟨hvne, hcore.1, hcore.2, ?_⟩
  intro h2
  rw [hcore.2, h2]
  rw [h2] at hcpi
  exact wrapIdx_two s.direction s.currentPlayerIndex hdir hcpi

def drawTwoCard : Card := ⟨50, CardColor.RED, CardType.DRAW_TWO, none⟩

/-- A two-player state with a full enough deck and a red draw-two in the
acting player's two-card hand. -/
def drawTwoState : GameState :=
  { deck := [⟨10, CardColor.GREEN, CardType.NUMBER, some 1⟩,
             ⟨11, CardColor.GREEN, CardType.NUMBER, some 2⟩,
             ⟨12, CardColor.GREEN, CardType.NUMBER, some 3⟩],
    discardPile := [⟨1, CardColor.RED, CardType.NUMBER, some 1⟩],
    players :=
      [⟨"p1", "You", false, [drawTwoCard, ⟨6, CardColor.BLUE, CardType.NUMBER, some 6⟩], 0⟩,
       ⟨"p2", "Gemini", true, [⟨7, CardColor.YELLOW, CardType.NUMBER, some 7⟩], 0⟩],
    currentPlayerIndex := 0, direction := 1, status := GameStatus.PLAYING,
    winner := none, roundWinner := none, pointsWon := 0,
    currentColor := CardColor.RED }

/-- The same two-player state with the deck exhausted and a single discard
card, so that only one card remains recyclable. -/
def exhaustedState : GameState :=
  { deck := [],
    discardPile := [⟨1, CardColor.RED, CardType.NUMBER, some 1⟩],
    players :=
      [⟨"p1", "You", false, [drawTwoCard, ⟨6, CardColor.BLUE, CardType.NUMBER, some 6⟩], 0⟩,
       ⟨"p2", "Gemini", true, [⟨7, CardColor.YELLOW, CardType.NUMBER, some 7⟩], 0⟩],
    currentPlayerIndex := 0, direction := 1, status := GameStatus.PLAYING,
    winner := none, roundWinner := none, pointsWon := 0,
    currentColor := CardColor.RED }

/-- Counterexample to C5 as stated: with the deck empty and one discard
card, playing a draw-two (not emptying the hand) gives the next player
only 1 card, not exactly 2. -/
theorem forced_draw_shortfall :
    drawTwoCard.type = CardType.DRAW_TWO ∧
    (exhaustedState.players[0]?).map (fun r => r.hand.length) = some 2 ∧
    wrapIdx exhaustedState.players.length exhaustedState.direction
      exhaustedState.currentPlayerIndex = 1 ∧
    ((finalizeMove id 500 GameMode.AI true drawTwoCard 0 none
        exhaustedState).players[1]?).map (fun r => r.hand.length)
      ≠ some (1 + 2) ∧
    ((finalizeMove id 500 GameMode.AI true drawTwoCard 0 none
        exhaustedState).players[1]?).map (fun r => r.hand.length)
      = some (1 + 1) := by
  decide

/-- Witness for the amended C5 at a concrete two-player draw-two play. -/
theorem forced_draw_effect_witness :
    wrapIdx drawTwoState.players.length drawTwoState.direction
      drawTwoState.currentPlayerIndex ≠ drawTwoState.currentPlayerIndex ∧
    ((finalizeMove id 500 GameMode.AI true drawTwoCard 0 none
        drawTwoState).players[
        wrapIdx drawTwoState.players.length drawTwoState.direction
          drawTwoState.currentPlayerIndex]?).map (fun r => r.hand.length)
      = some (1 + (if drawTwoCard.type = CardType.DRAW_TWO then 2 else 4)) ∧
    (finalizeMove id 500 GameMode.AI true drawTwoCard 0 none
        drawTwoState).currentPlayerIndex
      = wrapIdx drawTwoState.players.length drawTwoState.direction
          (wrapIdx drawTwoState.players.length drawTwoState.direction
            drawTwoState.currentPlayerIndex) ∧
    (drawTwoState.players.length = 2 →
      (finalizeMove id 500 GameMode.AI true drawTwoCard 0 none
          drawTwoState).currentPlayerIndex = drawTwoState.currentPlayerIndex) :=
  forced_draw_effect id (fun l => List.Perm.refl l) 500 GameMode.AI true
    drawTwoCard 0 none drawTwoState
    ⟨"p1", "You", false, [drawTwoCard, ⟨6, CardColor.BLUE, CardType.NUMBER, some 6⟩], 0⟩
    ⟨"p2", "Gemini", true, [⟨7, CardColor.YELLOW, CardType.NUMBER, some 7⟩], 0⟩
    (by decide) (by decide) (by decide) (by decide) (by decide) (by decide)
    (by decide) (by decide) (by decide)

/-! ## C1: card conservation -/

theorem allCards_nextTurn (x : GameState) : allCards (nextTurn x) = allCards x := rfl

theorem drawCards_allCards_perm (sh : List Card → List Card)
    (hsh : ∀ l : List Card, (sh l).Perm l)
    (i n : Nat) (s : GameState) (hi : i < s.players.length) :
    (allCards (drawCards sh i n s)).Perm (allCards s) := by
  obtain ⟨p, hp⟩ : ∃ p, s.players[i]? = some p := by
    cases hq : s.players[i]? with
    | some p => exact ⟨p, rfl⟩
    | none =>
      rw [List.getElem?_eq_none_iff] at hq
      omega
  rw [List.perm_iff_count]
  intro a
  by_cases hd : s.deck.length < n
  · by_cases hdp : 1 < s.discardPile.length
    · -- reshuffle branch
      have hne : s.discardPile ≠ [] := by
        intro h; rw [h] at hdp; simp at hdp
      have ht := List.getLast?_eq_getLast s.discardPile hne
      have hsplit := List.dropLast_concat_getLast hne
      have hdc : s.discardPile.count a
          = (s.discardPile.dropLast).count a
            + ([s.discardPile.getLast hne].count a) := by
        conv_lhs => rw [← hsplit]
        rw [List.count_append]
      have hshc : (sh s.discardPile.dropLast).count a
          = (s.discardPile.dropLast).count a := (hsh _).count_eq a
      have hJ := handsJoin_updateAt_count
        (fun r => { r with
          hand := (r.hand ++ (s.deck ++ sh s.discardPile.dropLast).take
            (min n (s.deck ++ sh s.discardPile.dropLast).length)) })
        i s.players p hp a
      simp only [handsJoin] at hJ
      have htd : ((s.deck ++ sh s.discardPile.dropLast).take
            (min n (s.deck ++ sh s.discardPile.dropLast).length)).count a
          + ((s.deck ++ sh s.discardPile.dropLast).drop
            (min n (s.deck ++ sh s.discardPile.dropLast).length)).count a
          = (s.deck ++ sh s.discardPile.dropLast).count a := by
        rw [← List.count_append, List.take_append_drop]
      unfold drawCards allCards
      simp only [if_pos hd, if_pos hdp, ht]
      simp only [List.count_append] at hJ htd ⊢
      omega
    · have hJ := handsJoin_updateAt_count
        (fun r => { r with hand := (r.hand ++ s.deck.take (min n s.deck.length)) })
        i s.players p hp a
      simp only [handsJoin] at hJ
      have htd : (s.deck.take (min n s.deck.length)).count a
          + (s.deck.drop (min n s.deck.length)).count a = s.deck.count a := by
        rw [← List.count_append, List.take_append_drop]
      unfold drawCards allCards
      simp only [if_pos hd, if_neg hdp]
      simp only [List.count_append] at hJ htd ⊢
      omega
  · have hJ := handsJoin_updateAt_count
      (fun r => { r with hand := (r.hand ++ s.deck.take (min n s.deck.length)) })
      i s.players p hp a
    simp only [handsJoin] at hJ
    have htd : (s.deck.take (min n s.deck.length)).count a
        + (s.deck.drop (min n s.deck.length)).count a = s.deck.count a := by
      rw [← List.count_append, List.take_append_drop]
    unfold drawCards allCards
    simp only [if_neg hd]
    simp only [List.count_append] at hJ htd ⊢
    omega

theorem handleCardEffect_allCards_perm (sh : List Card → List Card)
    (hsh : ∀ l : List Card, (sh l).Perm l)
    (card : Card) (s : GameState) (hpos : 0 < s.players.length) :
    (allCards (handleCardEffect sh card s)).Perm (allCards s) := by
  simp only [handleCardEffect]
  set cs := (if card.color ≠ CardColor.BLACK
    then { s with currentColor := card.color } else s) with hcs
  have hcseq : allCards cs = allCards s := by
    rw [hcs]; split <;> rfl
  have hcslen : cs.players.length = s.players.length := by
    rw [hcs]; split <;> rfl
  cases hct : card.type
  case NUMBER =>
    show (allCards cs).Perm (allCards s)
    exact List.Perm.of_eq hcseq
  case SKIP =>
    show (allCards (nextTurn cs)).Perm (allCards s)
    rw [allCards_nextTurn]
    exact List.Perm.of_eq hcseq
  case REVERSE =>
    show (allCards (if cs.players.length = 2 then nextTurn cs
      else { cs with direction := cs.direction * (-1) })).Perm (allCards s)
    split
    · rw [allCards_nextTurn]
      exact List.Perm.of_eq hcseq
    · have hd : allCards { cs with direction := cs.direction * (-1) } = allCards cs := rfl
      rw [hd]
      exact List.Perm.of_eq hcseq
  case DRAW_TWO =>
    show (allCards (nextTurn (drawCards sh
      (wrapIdx cs.players.length cs.direction cs.currentPlayerIndex) 2 cs))).Perm (allCards s)
    rw [allCards_nextTurn]
    exact (drawCards_allCards_perm sh hsh _ 2 cs
      (wrapIdx_lt _ _ _ (by rw [hcslen]; exact hpos))).trans (List.Perm.of_eq hcseq)
  case WILD_DRAW_FOUR =>
    show (allCards (nextTurn (drawCards sh
      (wrapIdx cs.players.length cs.direction cs.currentPlayerIndex) 4 cs))).Perm (allCards s)
    rw [allCards_nextTurn]
    exact (drawCards_allCards_perm sh hsh _ 4 cs
      (wrapIdx_lt _ _ _ (by rw [hcslen]; exact hpos))).trans (List.Perm.of_eq hcseq)
  case WILD =>
    show (allCards cs).Perm (allCards s)
    exact List.Perm.of_eq hcseq

theorem playedState_allCards_perm (card : Card) (index : Nat)
    (wc : Option CardColor) (s : GameState) (p : Player)
    (hp : s.players[s.currentPlayerIndex]? = some p)
    (hcard : p.hand[index]? = some card) :
    (allCards (playedState card index wc s)).Perm (allCards s) := by
  rw [List.perm_iff_count]
  intro a
  have hJ := handsJoin_updateAt_count
    (fun r => { r with hand := r.hand.eraseIdx index })
    s.currentPlayerIndex s.players p hp a
  simp only [handsJoin] at hJ
  have hhand := (perm_cons_eraseIdx p.hand index card hcard).count_eq a
  unfold playedState allCards
  simp only [List.count_append, List.count_cons] at hhand hJ ⊢
  by_cases hca : card = a <;> simp [hca] at hhand ⊢ <;> omega

theorem map_hand_updateAt_congr (f g : Player → Player)
    (hfg : ∀ q, (f q).hand = (g q).hand) :
    ∀ (i : Nat) (ps : List Player),
      (updateAt i f ps).map Player.hand = (updateAt i g ps).map Player.hand := by
  intro i
  induction i with
  | zero =>
    intro ps
    cases ps <;> simp [updateAt, hfg]
  | succ n ih =>
    intro ps
    cases ps <;> simp [updateAt, hfg, ih]

theorem finalizeMove_allCards_perm (sh : List Card → List Card)
    (hsh : ∀ l : List Card, (sh l).Perm l)
    (targetScore : Nat) (gameMode : GameMode) (isHost : Bool)
    (card : Card) (index : Nat) (wc : Option CardColor) (s : GameState)
    (hcard : (s.players[s.currentPlayerIndex]?).bind (fun p => p.hand[index]?)
      = some card) :
    (allCards (finalizeMove sh targetScore gameMode isHost card index wc s)).Perm
      (allCards s) := by
  cases hp : s.players[s.currentPlayerIndex]? with
  | none =>
    rw [hp] at hcard
    cases hcard
  | some p =>
    rw [hp] at hcard
    simp only [Option.some_bind] at hcard
    by_cases hauth : gameMode = GameMode.ONLINE ∧ isHost = false
    · unfold finalizeMove
      rw [if_pos hauth]
    · have hps := playedState_allCards_perm card index wc s p hp hcard
      by_cases hw : p.hand.eraseIdx index = []
      · rw [finalizeMove_win_eq sh targetScore gameMode isHost card index wc s p hauth hp hw]
        have hmap := map_hand_updateAt_congr
          (fun q => { q with hand := q.hand.eraseIdx index,
                             score := q.score
                               + otherHandsTotal s.currentPlayerIndex s.players })
          (fun r => { r with hand := r.hand.eraseIdx index })
          (fun q => rfl) s.currentPlayerIndex s.players
        refine List.Perm.trans (List.Perm.of_eq ?_) hps
        simp only [allCards, playedState]
        rw [hmap]
      · rw [finalizeMove_effect_eq sh targetScore gameMode isHost card index wc s p
          hauth hp hw]
        rw [allCards_nextTurn]
        have hpos : 0 < (playedState card index wc s).players.length := by
          rw [playedState_players_length]
          by_contra h
          rw [List.getElem?_eq_none (by omega)] at hp
          cases hp
        exact (handleCardEffect_allCards_perm sh hsh card _ hpos).trans hps

theorem gameStep_allCards_perm (sh : List Card → List Card)
    (hsh : ∀ l : List Card, (sh l).Perm l) (targetScore : Nat)
    {s t : GameState} (hstep : GameStep sh targetScore s t) :
    (allCards t).Perm (allCards s) := by
  cases hstep with
  | draw i n s h => exact drawCards_allCards_perm sh hsh i n s h
  | play gameMode isHost card index wc s h =>
    exact finalizeMove_allCards_perm sh hsh targetScore gameMode isHost card index wc s h
  | advance s => exact List.Perm.of_eq (allCards_nextTurn s)

theorem findStart_perm :
    ∀ (fuel : Nat) (l : List Card) (c : Card) (rest : List Card),
      findStart fuel l = some (c, rest) → (c :: rest).Perm l := by
  intro fuel
  induction fuel with
  | zero =>
    intro l c rest h
    cases l <;> cases h
  | succ m ih =>
    intro l c rest h
    cases l with
    | nil => cases h
    | cons x xs =>
      simp only [findStart] at h
      by_cases hx : x.type = CardType.WILD_DRAW_FOUR
      · rw [if_pos hx] at h
        exact (ih (xs ++ [x]) c rest h).trans (List.perm_append_singleton x xs)
      · rw [if_neg hx] at h
        simp only [Option.some_inj, Prod.mk.injEq] at h
        obtain ⟨h1, h2⟩ := h
        subst h1
        subst h2
        exact List.Perm.refl _

theorem deal_cards :
    ∀ (ps : List Player) (deck : List Card),
      handsJoin (deal ps deck).1 ++ (deal ps deck).2 = deck := by
  intro ps
  induction ps with
  | nil => intro deck; rfl
  | cons p ps ih =>
    intro deck
    simp only [deal, handsJoin, List.map_cons, List.flatten_cons]
    rw [List.append_assoc]
    have h := ih (deck.drop 7)
    simp only [handsJoin] at h
    rw [h, List.take_append_drop]

theorem setupRound_allCards (deck0 : List Card) (ps0 : List Player)
    (startIdx : Nat) (s0 : GameState)
    (hs : setupRound deck0 ps0 startIdx = some s0) :
    (allCards s0).Perm deck0 := by
  unfold setupRound at hs
  cases hf : findStart deck0.length deck0 with
  | none =>
    rw [hf] at hs
    cases hs
  | some pr =>
    obtain ⟨startCard, deck1⟩ := pr
    rw [hf] at hs
    simp only [Option.some_inj] at hs
    subst hs
    have hdeal := deal_cards ps0 deck1
    have hperm := findStart_perm deck0.length deck0 startCard deck1 hf
    rw [List.perm_iff_count]
    intro a
    have h1 := hperm.count_eq a
    have h2 := congrArg (List.count a) hdeal
    simp only [handsJoin, List.count_append] at h2
    simp only [allCards, List.count_append, List.count_cons] at h1 ⊢
    by_cases hsa : startCard = a <;> simp [hsa] at h1 ⊢ <;> omega

/-- C1: from any completed round setup over a full deck, every sequence of
authoritative mutations — finalized plays of a card actually held (with
their effect resolution and forced draws), draws of any count for any
seated player (with the reshuffle-on-empty path), and turn advances —
keeps the multiset of cards across the deck, the discard pile and all
hands exactly the 108-card deck: no card is duplicated or lost. -/
theorem card_conservation (sh : List Card → List Card)
    (hsh : ∀ l : List Card, (sh l).Perm l) (targetScore : Nat)
    (deck0 : List Card) (hdeck0 : deck0.Perm createDeckBase)
    (ps0 : List Player) (startIdx : Nat) (s0 s : GameState)
    (hsetup : setupRound deck0 ps0 startIdx = some s0)
    (hreach : Relation.ReflTransGen (GameStep sh targetScore) s0 s) :
    (allCards s).Perm createDeckBase ∧ (allCards s).length = 108 := by
  have hs0 : (allCards s0).Perm createDeckBase :=
    (setupRound_allCards deck0 ps0 startIdx s0 hsetup).trans hdeck0
  have hchain : (allCards s).Perm (allCards s0) := by
    induction hreach with
    | refl => exact List.Perm.refl _
    | tail hr hstep ih =>
      exact ((gameStep_allCards_perm sh hsh targetScore hstep).trans ih)
  have hfinal := hchain.trans hs0
  refine ⟨hfinal, ?_⟩
  rw [hfinal.length_eq]
  rfl

def initialPlayers : List Player :=
  [⟨"p1", "You", false, [], 0⟩, ⟨"p2", "Gemini", true, [], 0⟩]

def emptyGame : GameState :=
  { deck := [], discardPile := [], players := [], currentPlayerIndex := 0,
    direction := 1, status := GameStatus.LOBBY, winner := none,
    roundWinner := none, pointsWon := 0, currentColor := CardColor.RED }

/-- The state produced by a round setup over the unshuffled full deck. -/
def setupState0 : GameState :=
  (setupRound createDeckBase initialPlayers 0).getD emptyGame

/-- Witness for C1 at the concrete two-player setup over the full deck. -/
theorem card_conservation_witness :
    (allCards setupState0).Perm createDeckBase ∧ (allCards setupState0).length = 108 :=
  card_conservation id (fun l => List.Perm.refl l) 500 createDeckBase
    (List.Perm.refl _) initialPlayers 0 setupState0 setupState0 (by rfl)
    Relation.ReflTransGen.refl
